import Mathlib

/-!
Verification of the PO-catalog parser and plural-expression compiler of
helloSystem-Utilities (`Resources/translate.py`, `Resources/translate/__init__.py`,
`Resources/translate/plural.py`).

The Python sources are shallowly embedded: strings are Lean `String`s (scanned as
`List Char`), Python dicts keyed by strings are insertion-ordered association
lists, fallible code returns `Except PoErr`, and generators are modelled by
explicit token lists.  Character predicates (`str.isspace`, `str.isalpha`,
`str.isdigit`) are modelled over ASCII, which covers every input the catalog
format produces.
-/

/-- The error taxonomy.  `PoFileParseError` messages of the sources map to the
constructors named after them; `keyError` models Python's built-in `KeyError`
raised by dict subscription on a missing key; `malformedPluralForms` models the
`RuntimeError` of `PoFileTranslations.ngettext`; the expression-layer
constructors model the `ValueError`s of `plural.py`.  `fuelExhausted` is an
embedding artifact of the fuel parameters used for termination; every call in
this file supplies fuel strictly larger than the number of loop iterations the
Python code would perform, so it is never returned.  `evalFailure` marks the
(unreachable) case where the embedded evaluator of generated Python text cannot
read text that `_parse` produced. -/
inductive PoErr where
  | unknownCommentMarker
  | unterminatedString
  | unknownCharacter
  | discontinuousComment
  | duplicateKeyword
  | noStringsAfterKeyword
  | expectedEndOfEntry
  | unknownFieldKey
  | unknownEscape
  | unknownFlag
  | duplicateFlag
  | multiplePreviousEntries
  | keyError (key : String)
  | malformedPluralForms
  | invalidToken
  | unexpectedToken (t : String)
  | unexpectedEndOfExpression
  | unbalancedParenthesis
  | tooComplex
  | expressionTooLong
  | fuelExhausted
  | evalFailure
  deriving DecidableEq, Repr

deriving instance DecidableEq for Except

/-- Python `str.isspace` restricted to ASCII: the six ASCII whitespace
characters. -/
def pyIsSpace (c : Char) : Bool :=
  c = ' ' ∨ c = '\t' ∨ c = '\n' ∨ c = '\x0b' ∨ c = '\x0c' ∨ c = '\r'

/-- Python `str.lstrip()` (no argument strips whitespace). -/
def pyLstrip (l : List Char) : List Char := l.dropWhile pyIsSpace

/-- Python `str.rstrip('\n')`: strip trailing newline characters only. -/
def pyRstripNl (l : List Char) : List Char :=
  (l.reverse.dropWhile (· = '\n')).reverse

/-- Python `str.strip()` on both ends. -/
def pyStrip (l : List Char) : List Char :=
  ((l.dropWhile pyIsSpace).reverse.dropWhile pyIsSpace).reverse

/-- Python `str.split(sep)` for a one-character separator: splits at every
occurrence, keeping empty pieces; the result is always nonempty. -/
def pySplitChar (sep : Char) : List Char → List (List Char)
  | [] => [[]]
  | c :: rest =>
    if c = sep then [] :: pySplitChar sep rest
    else
      match pySplitChar sep rest with
      | [] => [[c]]
      | h :: t => (c :: h) :: t

/-- Python `sep.join(parts)`. -/
def pyJoin (sep : List Char) : List (List Char) → List Char
  | [] => []
  | [p] => p
  | p :: rest => p ++ sep ++ pyJoin sep rest

/-- `OrderedDict.__setitem__`: replace in place when the key exists, append
otherwise (insertion order preserved, as Python dicts do). -/
def odInsert (k : String) (v : α) : List (String × α) → List (String × α)
  | [] => [(k, v)]
  | (k', v') :: rest => if k' = k then (k, v) :: rest else (k', v') :: odInsert k v rest

/-- `del d[k]` on an ordered dict. -/
def odDelete (k : String) : List (String × α) → List (String × α)
  | [] => []
  | (k', v') :: rest => if k' = k then rest else (k', v') :: odDelete k rest

/-- `k in d` on an ordered dict. -/
def odContains (k : String) (m : List (String × α)) : Bool :=
  (List.lookup k m).isSome

/-- `PoFileEntry.ESCAPES` (identical in `translate.py` and
`translate/__init__.py`): the decoded character for the character following a
backslash, for the ten recognized two-character sequences. -/
def escLookup (c : Char) : Option Char :=
  if c = '"' then some '"'
  else if c = '\'' then some '\''
  else if c = '\\' then some '\\'
  else if c = 'a' then some '\x07'
  else if c = 'b' then some '\x08'
  else if c = 'f' then some '\x0c'
  else if c = 'n' then some '\n'
  else if c = 'r' then some '\x0d'
  else if c = 't' then some '\t'
  else if c = 'v' then some '\x0b'
  else none

/-- `PoFileEntry.unescape`: the source scans for `\`, copies the chunk before
it, maps the two-character slice `string[j:j+2]` through `ESCAPES` (a trailing
lone backslash yields a one-character slice, absent from `ESCAPES`, hence
`UnknownEscape`), and resumes after the pair.  Character-by-character this is
the recursion below. -/
def unescapeCore : List Char → Except PoErr (List Char)
  | [] => .ok []
  | c :: rest =>
    if c = '\\' then
      match rest with
      | [] => .error .unknownEscape
      | e :: rest' =>
        match escLookup e with
        | some d => (d :: ·) <$> unescapeCore rest'
        | none => .error .unknownEscape
    else (c :: ·) <$> unescapeCore rest

/-- `PoFileEntry.unescape` on `String`. -/
def unescape (s : String) : Except PoErr String :=
  String.mk <$> unescapeCore s.data

example : unescape "\\n" = .ok "\n" := by decide
example : unescape "\\\\" = .ok "\\" := by decide
example : unescape "a\\tb" = .ok "a\tb" := by decide
example : unescape "\\q" = .error .unknownEscape := by decide
example : unescape "x\\" = .error .unknownEscape := by decide

/-! ## The PO lexer

`translate.py` and `translate/__init__.py` contain the same `_tokenize`
function except for one line: the keyword-continuation character set
(`translate.py` line 48 admits letters only; `translate/__init__.py` line 106
admits letters, digits, `_`, `[` and `]`).  The scanner is embedded once,
parameterized by that predicate; both source functions are instances. -/

/-- A token of `_tokenize`: `nil` is the blank-line token `_NIL`; the stream end
`_END` is modelled by the end of the token list. -/
inductive Tok where
  | nil
  | comment (marker : String) (value : String)
  | keyword (name : String)
  | str (value : String)
  deriving DecidableEq, Repr

/-- Python `str.isalpha` over ASCII. -/
def pyIsAlpha (c : Char) : Bool := ('a' ≤ c ∧ c ≤ 'z') ∨ ('A' ≤ c ∧ c ≤ 'Z')

/-- Python `str.isdigit` over ASCII. -/
def pyIsDigit (c : Char) : Bool := '0' ≤ c ∧ c ≤ '9'

/-- Keyword-continuation set of `translate.py` line 48: letters only. -/
def npKw (c : Char) : Bool := pyIsAlpha c

/-- Keyword-continuation set of `translate/__init__.py` line 106: letters,
digits, `_`, `[`, `]`. -/
def pKw (c : Char) : Bool := pyIsAlpha c ∨ pyIsDigit c ∨ c = '_' ∨ c = '[' ∨ c = ']'

/-- The quoted-string scan of `_tokenize` (both files): called on the characters
after the opening quote; a backslash advances the scan by two; running past the
end is `UnterminatedString`.  Returns the token content and the characters after
the closing quote. -/
def scanString : List Char → Except PoErr (List Char × List Char)
  | [] => .error .unterminatedString
  | '"' :: rest => .ok ([], rest)
  | '\\' :: rest =>
    match rest with
    | [] => .error .unterminatedString
    | c :: rest' => (fun p => ('\\' :: c :: p.1, p.2)) <$> scanString rest'
  | c :: rest => (fun p => (c :: p.1, p.2)) <$> scanString rest

/-- The keyword/string loop of `_tokenize`: while the line is nonempty, scan a
quoted string, or (when the first character is a letter) a keyword run of `kw`
characters, else fail with `UnknownCharacter`; left-trim after each token.
`fuel` only bounds the loop for termination; `length + 1` always suffices since
every iteration consumes at least one character. -/
def scanChunks (kw : Char → Bool) : Nat → List Char → Except PoErr (List Tok)
  | 0, _ => .error .fuelExhausted
  | _, [] => .ok []
  | fuel + 1, c :: rest =>
    if c = '"' then
      match scanString rest with
      | .error e => .error e
      | .ok (s, r) =>
        match scanChunks kw fuel (pyLstrip r) with
        | .error e => .error e
        | .ok ts => .ok (Tok.str (String.mk s) :: ts)
    else if pyIsAlpha c then
      match scanChunks kw fuel (pyLstrip ((c :: rest).dropWhile kw)) with
      | .error e => .error e
      | .ok ts => .ok (Tok.keyword (String.mk ((c :: rest).takeWhile kw)) :: ts)
    else .error .unknownCharacter

/-- The comment branch of `_tokenize` (identical in both files), applied to a
line whose first character is `#`: a lone `#` or `#` followed by whitespace is a
plain comment with value `line[1:]`; otherwise a two-character marker whose
remainder must be empty or start with whitespace, else `UnknownCommentMarker`. -/
def commentToken : List Char → Except PoErr Tok
  | '#' :: rest =>
    match rest with
    | [] => .ok (Tok.comment "#" "")
    | c :: rest2 =>
      if pyIsSpace c then .ok (Tok.comment "#" (String.mk (c :: rest2)))
      else
        match rest2 with
        | [] => .ok (Tok.comment (String.mk ['#', c]) "")
        | d :: _ =>
          if pyIsSpace d then .ok (Tok.comment (String.mk ['#', c]) (String.mk rest2))
          else .error .unknownCommentMarker
  | _ => .error .unknownCommentMarker

/-- One line of `_tokenize`: left-strip and strip the trailing newline; a line
that is then empty (or all whitespace, the source's `line.isspace()` disjunct)
yields the blank token; a `#` line yields one comment token; otherwise the
keyword/string loop runs. -/
def pyCleanLine (line : String) : List Char :=
  pyRstripNl (pyLstrip line.data)

def tokenizeLine (kw : Char → Bool) (line : String) : Except PoErr (List Tok) :=
  if (pyCleanLine line).isEmpty ∨ (pyCleanLine line).all pyIsSpace then .ok [Tok.nil]
  else if (pyCleanLine line).head? = some '#' then
    (fun t => [t]) <$> commentToken (pyCleanLine line)
  else scanChunks kw ((pyCleanLine line).length + 1) (pyCleanLine line)

/-- `_tokenize` over a line sequence: concatenate the per-line tokens. -/
def tokenizeLines (kw : Char → Bool) : List String → Except PoErr (List Tok)
  | [] => .ok []
  | line :: rest =>
    match tokenizeLine kw line with
    | .error e => .error e
    | .ok ts =>
      match tokenizeLines kw rest with
      | .error e => .error e
      | .ok ts' => .ok (ts ++ ts')

example : tokenizeLines pKw ["msgid \"a\""] = .ok [Tok.keyword "msgid", Tok.str "a"] := by decide
example : tokenizeLines pKw ["msgstr[0] \"x\" \"y\""]
    = .ok [Tok.keyword "msgstr[0]", Tok.str "x", Tok.str "y"] := by decide
example : tokenizeLines npKw ["msgstr[0] \"x\""] = .error .unknownCharacter := by decide
example : tokenizeLines pKw ["#, fuzzy", "", "# c"]
    = .ok [Tok.comment "#," " fuzzy", Tok.nil, Tok.comment "#" " c"] := by decide
example : tokenizeLines pKw ["\"a\\\"b\""] = .ok [Tok.str "a\\\"b"] := by decide
example : tokenizeLines pKw ["\"abc"] = .error .unterminatedString := by decide

/-! ## The entry parser

`PoFileReader` is character-for-character identical in `translate.py` and
`translate/__init__.py`; it is embedded once.  The peeked token is the head of
the remaining token list; an empty list is the `_END` token.  The two
`PoFileEntry` classes differ only in their key validation, so entry parsing is
parameterized by the validity predicate applied at `Entry` construction. -/

/-- An entry's field map: recognized key → tuple of raw value lines, in
insertion order (the `OrderedDict` the reader builds). -/
abbrev FieldMap := List (String × List String)

/-- The inner collection of consecutive comment tokens with the same marker
(the `while self._peek.type == key` loop). -/
def takeComments (marker : String) : List Tok → (List String × List Tok)
  | Tok.comment mk v :: rest =>
    if mk = marker then
      let (vs, r) := takeComments marker rest
      (v :: vs, r)
    else ([], Tok.comment mk v :: rest)
  | toks => ([], toks)

/-- The comments loop of `PoFileReader.__next__`: while the lookahead is a
comment token, a marker already present in the entry is `DiscontinuousComment`;
otherwise its contiguous run is collected.  Fuel bounds the outer loop;
`length + 1` suffices. -/
def collectComments : Nat → FieldMap → List Tok → Except PoErr (FieldMap × List Tok)
  | 0, _, _ => .error .fuelExhausted
  | fuel + 1, m, toks =>
    match toks with
    | Tok.comment mk v :: rest =>
      if odContains mk m then .error .discontinuousComment
      else
        let (vs, r) := takeComments mk rest
        collectComments fuel (odInsert mk (v :: vs) m) r
    | _ => .ok (m, toks)

/-- The collection of consecutive string tokens after a keyword
(the `while self._peek.type == 'string'` loop). -/
def takeStrings : List Tok → (List String × List Tok)
  | Tok.str v :: rest =>
    let (vs, r) := takeStrings rest
    (v :: vs, r)
  | toks => ([], toks)

/-- The keywords loop of `PoFileReader.__next__`.  The duplicate test is the
source's `if self._peek.type in entry`: the *type* of a keyword token is the
literal string `'keyword'`, so the test asks whether `"keyword"` is a key of
the entry — not whether the keyword's value repeats. -/
def collectKeywords : Nat → FieldMap → List Tok → Except PoErr (FieldMap × List Tok)
  | 0, _, _ => .error .fuelExhausted
  | fuel + 1, m, toks =>
    match toks with
    | Tok.keyword name :: rest =>
      if odContains "keyword" m then .error .duplicateKeyword
      else
        let (vs, r) := takeStrings rest
        if vs.isEmpty then .error .noStringsAfterKeyword
        else collectKeywords fuel (odInsert name vs m) r
    | _ => .ok (m, toks)

/-- `PoFileEntry.DEFAULT` of `translate.py`: the seven static keys, each with
the empty tuple as default value. -/
def npDefault : FieldMap :=
  [("#", []), ("#.", []), ("#,", []), ("#|", []), ("msgctxt", []), ("msgid", []),
   ("msgstr", [])]

/-- `PoFileEntry.DEFAULT` of `translate/__init__.py`: the eight static keys. -/
def pDefault : FieldMap :=
  [("#", []), ("#.", []), ("#,", []), ("#|", []), ("msgctxt", []), ("msgid", []),
   ("msgstr", []), ("msgid_plural", [])]

/-- `re.match(r"msgstr\[\d+\]", x) is not None`: `re.match` anchors at the
start of the string only, so this asks whether `x` *begins with* `msgstr[`,
one or more digits, `]` — any suffix after the closing bracket is allowed. -/
def isIndexedMsgstr (x : String) : Bool :=
  match x.data with
  | 'm' :: 's' :: 'g' :: 's' :: 't' :: 'r' :: '[' :: rest =>
    let ds := rest.takeWhile pyIsDigit
    match rest.dropWhile pyIsDigit with
    | ']' :: _ => ¬ ds.isEmpty
    | _ => false
  | _ => false

/-- Key validity of `translate.py`'s `PoFileEntry.__init__`: every key must be
in the static `DEFAULT` set. -/
def npValidKey (k : String) : Bool := odContains k npDefault

/-- Key validity of `translate/__init__.py`'s `PoFileEntry.__init__`: every key
must be in the static `DEFAULT` set or match the indexed-`msgstr` pattern. -/
def pValidKey (k : String) : Bool := odContains k pDefault ∨ isIndexedMsgstr k

/-- `PoFileEntry.__init__` of `translate/__init__.py`: construction fails with
`UnknownFieldKey` (`"Unknown comment or keyword"`) unless every collected key
is valid; otherwise the entry is the collected map. -/
def mkEntryP (m : FieldMap) : Except PoErr FieldMap :=
  if m.all (fun kv => pValidKey kv.1) then .ok m else .error .unknownFieldKey

/-- `PoFileEntry.__init__` of `translate.py`. -/
def mkEntryNP (m : FieldMap) : Except PoErr FieldMap :=
  if m.all (fun kv => npValidKey kv.1) then .ok m else .error .unknownFieldKey

/-- One `PoFileReader.__next__` call (lookahead not at end): comments loop,
keywords loop, then only blank/end may follow (`ExpectedEndOfEntry`), trailing
blanks are skipped, and the entry is constructed through `valid`. -/
def finishEntry (valid : String → Bool) (m2 : FieldMap) (t2 : List Tok) :
    Except PoErr (FieldMap × List Tok) :=
  match t2 with
  | Tok.comment _ _ :: _ => .error .expectedEndOfEntry
  | Tok.str _ :: _ => .error .expectedEndOfEntry
  | _ =>
    if m2.all (fun kv => valid kv.1) then .ok (m2, t2.dropWhile (· = Tok.nil))
    else .error .unknownFieldKey

def parseEntry (valid : String → Bool) (toks : List Tok) :
    Except PoErr (FieldMap × List Tok) :=
  match collectComments (toks.length + 1) [] toks with
  | .error e => .error e
  | .ok (m1, t1) =>
    match collectKeywords (t1.length + 1) m1 t1 with
    | .error e => .error e
    | .ok (m2, t2) => finishEntry valid m2 t2

/-- Iterating the reader to exhaustion (`StopIteration` when the lookahead is
`_END`, i.e. the token list is empty).  Fuel bounds the number of entries;
`length + 1` suffices since every entry consumes at least one token. -/
def parseAll (valid : String → Bool) : Nat → List Tok → Except PoErr (List FieldMap)
  | 0, _ => .error .fuelExhausted
  | _, [] => .ok []
  | fuel + 1, toks =>
    match parseEntry valid toks with
    | .error e => .error e
    | .ok (m, rest) =>
      match parseAll valid fuel rest with
      | .error e => .error e
      | .ok ms => .ok (m :: ms)

/-- The full non-plural parser of `translate.py`: its `_tokenize` feeding its
`PoFileReader` with its `PoFileEntry`, producing the entries' field maps. -/
def npParse (lines : List String) : Except PoErr (List FieldMap) :=
  match tokenizeLines npKw lines with
  | .error e => .error e
  | .ok toks => parseAll npValidKey (toks.length + 1) toks

/-- The full plural-aware parser of `translate/__init__.py`. -/
def pParse (lines : List String) : Except PoErr (List FieldMap) :=
  match tokenizeLines pKw lines with
  | .error e => .error e
  | .ok toks => parseAll pValidKey (toks.length + 1) toks

example : pParse ["msgid \"a\"", "msgstr \"b\""]
    = .ok [[("msgid", ["a"]), ("msgstr", ["b"])]] := by decide
example : npParse ["msgid \"a\"", "msgstr \"b\""]
    = .ok [[("msgid", ["a"]), ("msgstr", ["b"])]] := by decide
example : pParse ["msgid \"a\"", "", "msgstr \"b\""]
    = .ok [[("msgid", ["a"])], [("msgstr", ["b"])]] := by decide
example : pParse ["# a", "#. b", "# c", "msgid \"x\" \"y\""] = .error .discontinuousComment := by
  decide
example : pParse ["msgid"] = .error .noStringsAfterKeyword := by decide
example : pParse ["bogus \"x\""] = .error .unknownFieldKey := by decide
example : pParse ["msgid \"a\"", "msgid \"b\""] = .ok [[("msgid", ["b"])]] := by decide

/-! ## Entry accessors (`translate/__init__.py`) -/

/-- `PoFileEntry.__getitem__`: `self._dict.get(key, self.DEFAULT[key])`.
Python evaluates the argument `self.DEFAULT[key]` *before* calling `get`, so a
key absent from the static `DEFAULT` map raises `KeyError` even when it is
present in `self._dict`. -/
def getItem (m : FieldMap) (k : String) : Except PoErr (List String) :=
  match List.lookup k pDefault with
  | none => .error (.keyError k)
  | some d => .ok ((List.lookup k m).getD d)

/-- `PoFileEntry._getkeyword`: concatenate the field's raw lines and unescape
the concatenation once. -/
def getKeyword (m : FieldMap) (k : String) : Except PoErr String :=
  match getItem m k with
  | .error e => .error e
  | .ok parts => unescape (String.join parts)

/-- `PoFileEntry.id`. -/
def entryId (m : FieldMap) : Except PoErr String := getKeyword m "msgid"

/-- `PoFileEntry.string`. -/
def entryString (m : FieldMap) : Except PoErr String := getKeyword m "msgstr"

/-- `PoFileEntry.plural_id`.  Note the result is a string (`""` when the field
is absent), never Python's `None`. -/
def entryPluralId (m : FieldMap) : Except PoErr String := getKeyword m "msgid_plural"

/-- `PoFileEntry.plural_form(n)`: `self._getkeyword('msgstr[' + str(n) + ']')`. -/
def pluralForm (m : FieldMap) (n : Int) : Except PoErr String :=
  getKeyword m ("msgstr[" ++ toString n ++ "]")

example : getItem [("msgid", ["a"])] "msgstr" = .ok [] := by decide
example : entryString [("msgid", ["a"]), ("msgstr", ["b"])] = .ok "b" := by decide
example : pluralForm [("msgid", ["a"]), ("msgstr[0]", ["x"])] 0
    = .error (.keyError "msgstr[0]") := by decide

/-! ## The plural-expression compiler (`translate/plural.py`)

`_parse` produces Python source *text* (a string); `c2py` then length-checks,
parses, rejects trailing tokens, depth-checks the text and `exec`s it as the
body of `def func(n): return int(<text>)`.  The text production is embedded
verbatim below; the `exec`d function is modelled further down by an evaluator
of the generated Python expression subset. -/

/-- `\w` of the tokenizer's regex, over ASCII. -/
def pyIsWord (c : Char) : Bool := pyIsAlpha c ∨ pyIsDigit c ∨ c = '_'

/-- `_tokenize` of `plural.py`: the compiled regex alternation.  Spaces and
tabs are skipped; a decimal run (with `\b`: not followed by a word character),
the identifier `n` (also with `\b`), parentheses, the listed operators; a word
run not of that shape or any stray character is `InvalidToken` (the regex's
`INVALID` group).  The stream ends with the empty sentinel the generator
yields.  Fuel bounds the scan; `length + 1` suffices. -/
def ptokScan : Nat → List Char → Except PoErr (List String)
  | 0, _ => .error .fuelExhausted
  | _, [] => .ok [""]
  | fuel + 1, c :: rest =>
    if c = ' ' ∨ c = '\t' then ptokScan fuel rest
    else if pyIsDigit c then
      let r := (c :: rest).dropWhile pyIsDigit
      match r.head? with
      | some x =>
        if pyIsWord x then .error .invalidToken
        else (String.mk ((c :: rest).takeWhile pyIsDigit) :: ·) <$> ptokScan fuel r
      | none => (String.mk ((c :: rest).takeWhile pyIsDigit) :: ·) <$> ptokScan fuel r
    else if c = 'n' then
      match rest.head? with
      | some x =>
        if pyIsWord x then .error .invalidToken
        else ("n" :: ·) <$> ptokScan fuel rest
      | none => ("n" :: ·) <$> ptokScan fuel rest
    else if c = '(' ∨ c = ')' ∨ c = '-' ∨ c = '*' ∨ c = '/' ∨ c = '%' ∨ c = '+' ∨
            c = '?' ∨ c = ':' then
      (String.mk [c] :: ·) <$> ptokScan fuel rest
    else if c = '>' ∨ c = '<' ∨ c = '!' then
      match rest with
      | '=' :: rest' => (String.mk [c, '='] :: ·) <$> ptokScan fuel rest'
      | _ => (String.mk [c] :: ·) <$> ptokScan fuel rest
    else if c = '=' then
      match rest with
      | '=' :: rest' => ("==" :: ·) <$> ptokScan fuel rest'
      | _ => .error .invalidToken
    else if c = '&' then
      match rest with
      | '&' :: rest' => ("&&" :: ·) <$> ptokScan fuel rest'
      | _ => .error .invalidToken
    else if c = '|' then
      match rest with
      | '|' :: rest' => ("||" :: ·) <$> ptokScan fuel rest'
      | _ => .error .invalidToken
    else .error .invalidToken

/-- `_binary_ops`: precedence tier of a binary operator token (1 lowest). -/
def binPrio (t : String) : Option Int :=
  if t = "||" then some 1
  else if t = "&&" then some 2
  else if t = "==" ∨ t = "!=" then some 3
  else if t = "<" ∨ t = ">" ∨ t = "<=" ∨ t = ">=" then some 4
  else if t = "+" ∨ t = "-" then some 5
  else if t = "*" ∨ t = "/" ∨ t = "%" then some 6
  else none

/-- `_c2py_ops`: C operators replaced by Python spellings. -/
def c2pyOp (t : String) : String :=
  if t = "||" then "or" else if t = "&&" then "and" else if t = "/" then "//" else t

/-- `int(nexttok, 10)` restricted to the tokens the tokenizer can emit: a
nonempty decimal-digit run parses to its value (leading zeros still decimal),
anything else is the `ValueError` branch.  (Python's `int` also accepts signs,
surrounding whitespace and underscores, but no such token reaches `_parse`.) -/
def parseIntTok (s : String) : Option Nat :=
  if ¬ s.data.isEmpty ∧ s.data.all pyIsDigit then
    some (s.data.foldl (fun n c => n * 10 + (c.toNat - '0'.toNat)) 0)
  else none

/-- `next(tokens)` on the modelled token list (the list always ends with the
`''` sentinel before exhaustion, so the `[]` case is unreachable). -/
def pnext : List String → String × List String
  | [] => ("", [])
  | t :: rest => (t, rest)

/-- The `while nexttok == '!'` prefix loop of `_parse`: accumulates `'not '`
per `!` and returns the first non-`!` token with the remaining stream. -/
def skipBangs : List String → String × String × List String
  | [] => ("", "", [])
  | t :: rest =>
    if t = "!" then
      let (p, n, r) := skipBangs rest
      ("not " ++ p, n, r)
    else ("", t, rest)

mutual

/-- `_parse(tokens, priority)` of `plural.py`, producing the generated Python
text, the one-token lookahead the Python generator protocol leaves in
`nexttok`, and the rest of the stream.  Fuel bounds the recursion depth; since every recursive
call follows the consumption of at least one token, `tokens + 1` suffices. -/
def pparse (fuel : Nat) (toks : List String) (priority : Int) :
    Except PoErr (String × String × List String) :=
  match fuel with
  | 0 => .error .fuelExhausted
  | fuel + 1 =>
    let (notPfx, nexttok, toks) := skipBangs toks
    let prim : Except PoErr (String × String × List String) :=
      if nexttok = "(" then
        match pparse fuel toks (-1) with
        | .error e => .error e
        | .ok (sub, nt, toks') =>
          if nt ≠ ")" then .error .unbalancedParenthesis
          else
            let (nt2, toks'') := pnext toks'
            .ok (notPfx ++ "(" ++ sub ++ ")", nt2, toks'')
      else if nexttok = "n" then
        let (nt2, toks') := pnext toks
        .ok (notPfx ++ "n", nt2, toks')
      else
        match parseIntTok nexttok with
        | some v =>
          let (nt2, toks') := pnext toks
          .ok (notPfx ++ toString v, nt2, toks')
        | none =>
          .error (if nexttok = "" then .unexpectedEndOfExpression else .unexpectedToken nexttok)
    match prim with
    | .error e => .error e
    | .ok (result, nexttok, toks) =>
      match opsLoop fuel result 100 nexttok toks priority with
      | .error e => .error e
      | .ok (result, j, nexttok, toks) =>
        let result := if j = priority ∧ priority = 4 then "(" ++ result ++ ")" else result
        if nexttok = "?" ∧ priority ≤ 0 then
          match pparse fuel toks 0 with
          | .error e => .error e
          | .ok (ifTrue, nt, toks') =>
            if nt ≠ ":" then
              .error (if nt = "" then .unexpectedEndOfExpression else .unexpectedToken nt)
            else
              match pparse fuel toks' (-1) with
              | .error e => .error e
              | .ok (ifFalse, nt2, toks'') =>
                let r := ifTrue ++ " if " ++ result ++ " else " ++ ifFalse
                .ok (if priority = 0 then "(" ++ r ++ ")" else r, nt2, toks'')
        else .ok (result, nexttok, toks)
termination_by structural fuel

/-- The `while nexttok in _binary_ops` loop of `_parse`: carries the generated
text, the previous tier `j` (initially 100), the lookahead and the remaining
stream.  A tier below `priority` breaks out; adjacent tier-3/4 operators wrap
the accumulated left side in parentheses before appending the operator. -/
def opsLoop (fuel : Nat) (result : String) (j : Int) (nexttok : String)
    (toks : List String) (priority : Int) :
    Except PoErr (String × Int × String × List String) :=
  match fuel with
  | 0 => .error .fuelExhausted
  | fuel + 1 =>
    match binPrio nexttok with
    | none => .ok (result, j, nexttok, toks)
    | some i =>
      if i < priority then .ok (result, j, nexttok, toks)
      else
        let result := if (i = 3 ∨ i = 4) ∧ (j = 3 ∨ j = 4) then "(" ++ result ++ ")" else result
        let op := c2pyOp nexttok
        match pparse fuel toks (i + 1) with
        | .error e => .error e
        | .ok (right, nt, toks') =>
          opsLoop fuel (result ++ " " ++ op ++ " " ++ right) i nt toks' priority
termination_by structural fuel

end

/-- The nesting-depth check of `c2py`: scan the generated text; `(` deepens and
fails past 20, `)` shallows. -/
def depthLoop : List Char → Int → Except PoErr Unit
  | [], _ => .ok ()
  | c :: rest, d =>
    if c = '(' then
      if d + 1 > 20 then .error .tooComplex else depthLoop rest (d + 1)
    else if c = ')' then depthLoop rest (d - 1)
    else depthLoop rest d

/-- `c2py` up to the generated source text: the 1000-character bound, the
tokenizer, `_parse`, the trailing-token check and the depth check.  (The
`except RecursionError` wrapper has no counterpart: the embedding is total.)
The returned string is the expression inside `return int(...)` of the `exec`d
function. -/
def c2py (plural : String) : Except PoErr String :=
  if plural.length > 1000 then .error .expressionTooLong
  else
    match ptokScan (plural.data.length + 1) plural.data with
    | .error e => .error e
    | .ok toks =>
      match pparse (toks.length + 1) toks (-1) with
      | .error e => .error e
      | .ok (result, nexttok, _) =>
        if nexttok ≠ "" then .error (.unexpectedToken nexttok)
        else
          match depthLoop result.data 0 with
          | .error e => .error e
          | .ok _ => .ok result

example : c2py "(n != 1)" = .ok "(n != 1)" := by decide
example : c2py "n != 1" = .ok "n != 1" := by decide
example : c2py "n < 2 < 1" = .ok "(n < 2) < 1" := by decide
example : c2py "n == 1 ? 0 : 1" = .ok "0 if n == 1 else 1" := by decide
example : c2py "n / 2" = .ok "n // 2" := by decide
example : c2py "n && (1" = .error .unbalancedParenthesis := by decide
example : c2py "n 5" = .error (.unexpectedToken "5") := by decide
example : c2py "n +" = .error .unexpectedEndOfExpression := by decide
example : c2py "m + 1" = .error .invalidToken := by decide

/-! ## Evaluation of the generated Python text

`c2py` `exec`s `def func(n): return int(<text>)` and returns `func`.  The
evaluator below models calling that function on an integer: it reads the
generated text back with Python's expression grammar (comparison *chaining*
included, which is exactly what the compiler's bracketing must defeat) and
evaluates it with Python semantics — `and`/`or` return an operand and
short-circuit, `not` and comparisons yield booleans (here 0/1, as Python's
`bool` is an `int` subtype and the result passes through `int(...)`), `//` is
floor division and `%` the floor-signed remainder.  Only the integer branch of
the `exec`d function is modelled: `_as_int` coercion of non-integer arguments
is out of scope, every application in this file passes an integer. -/

/-- A token of the generated Python text. -/
inductive PyTok where
  | num (v : Nat)
  | word (s : String)
  | sym (s : String)
  deriving DecidableEq, Repr

/-- Lexer for the generated text: numbers, identifiers/keywords, the operator
symbols `_parse` can emit.  Returns `none` on text outside that subset. -/
def pyTokLex : Nat → List Char → Option (List PyTok)
  | 0, _ => none
  | _, [] => some []
  | fuel + 1, c :: rest =>
    if c = ' ' then pyTokLex fuel rest
    else if pyIsDigit c then
      let ds := (c :: rest).takeWhile pyIsDigit
      (PyTok.num (ds.foldl (fun n d => n * 10 + (d.toNat - '0'.toNat)) 0) :: ·) <$>
        pyTokLex fuel ((c :: rest).dropWhile pyIsDigit)
    else if pyIsAlpha c then
      (PyTok.word (String.mk ((c :: rest).takeWhile pyIsAlpha)) :: ·) <$>
        pyTokLex fuel ((c :: rest).dropWhile pyIsAlpha)
    else if c = '(' ∨ c = ')' ∨ c = '%' ∨ c = '+' ∨ c = '-' ∨ c = '*' then
      (PyTok.sym (String.mk [c]) :: ·) <$> pyTokLex fuel rest
    else if c = '/' then
      match rest with
      | '/' :: r => (PyTok.sym "//" :: ·) <$> pyTokLex fuel r
      | _ => none
    else if c = '<' ∨ c = '>' then
      match rest with
      | '=' :: r => (PyTok.sym (String.mk [c, '=']) :: ·) <$> pyTokLex fuel r
      | _ => (PyTok.sym (String.mk [c]) :: ·) <$> pyTokLex fuel rest
    else if c = '=' then
      match rest with
      | '=' :: r => (PyTok.sym "==" :: ·) <$> pyTokLex fuel r
      | _ => none
    else if c = '!' then
      match rest with
      | '=' :: r => (PyTok.sym "!=" :: ·) <$> pyTokLex fuel r
      | _ => none
    else none

/-- Python comparison operators. -/
inductive PyCmp where
  | lt | le | gt | ge | eq | ne
  deriving DecidableEq, Repr

/-- Python arithmetic operators of the generated subset. -/
inductive PyArith where
  | add | sub | mul | fdiv | fmod
  deriving DecidableEq, Repr

/-- Abstract syntax of the generated Python expression subset.  A chained
comparison `a < b < c` is desugared at parse time to
`(a < b) and (b < c)` — semantically identical for these pure operands, and
exactly Python's chaining semantics. -/
inductive PyExpr where
  | lit (v : Int)
  | nvar
  | pnot (e : PyExpr)
  | pand (a b : PyExpr)
  | por (a b : PyExpr)
  | cmp (op : PyCmp) (a b : PyExpr)
  | arith (op : PyArith) (a b : PyExpr)
  | cond (thenE condE elseE : PyExpr)
  deriving DecidableEq, Repr

/-- Python truthiness on integers. -/
def pyTruthy (v : Int) : Bool := v ≠ 0

/-- Comparison evaluation. -/
def pyCmpEval : PyCmp → Int → Int → Bool
  | .lt, a, b => a < b
  | .le, a, b => a ≤ b
  | .gt, a, b => b < a
  | .ge, a, b => b ≤ a
  | .eq, a, b => a = b
  | .ne, a, b => a ≠ b

/-- Arithmetic evaluation: `//` is Python's floor division, `%` the matching
remainder (`a % b == a - b * (a // b)`). -/
def pyArithEval : PyArith → Int → Int → Int
  | .add, a, b => a + b
  | .sub, a, b => a - b
  | .mul, a, b => a * b
  | .fdiv, a, b => Int.fdiv a b
  | .fmod, a, b => a - b * Int.fdiv a b

/-- Evaluation of the generated expression at `n`, with Python semantics:
`and`/`or` return one of their operands (short-circuiting), `not` and
comparisons return booleans (0/1), `X if C else Y` evaluates the branch `C`
selects. -/
def pyEvalExpr : PyExpr → Int → Int
  | .lit v, _ => v
  | .nvar, n => n
  | .pnot e, n => if pyTruthy (pyEvalExpr e n) then 0 else 1
  | .pand a b, n =>
    let va := pyEvalExpr a n
    if pyTruthy va then pyEvalExpr b n else va
  | .por a b, n =>
    let va := pyEvalExpr a n
    if pyTruthy va then va else pyEvalExpr b n
  | .cmp op a b, n => if pyCmpEval op (pyEvalExpr a n) (pyEvalExpr b n) then 1 else 0
  | .arith op a b, n => pyArithEval op (pyEvalExpr a n) (pyEvalExpr b n)
  | .cond t c e, n => if pyTruthy (pyEvalExpr c n) then pyEvalExpr t n else pyEvalExpr e n

/-- The comparison operator of a symbol token. -/
def pyCmpOf (s : String) : Option PyCmp :=
  if s = "<" then some .lt
  else if s = "<=" then some .le
  else if s = ">" then some .gt
  else if s = ">=" then some .ge
  else if s = "==" then some .eq
  else if s = "!=" then some .ne
  else none

mutual

/-- Python `conditional_expression ::= or_test ["if" or_test "else" expression]`
(the ternary is right-associative and lowest-precedence). -/
def pyTern (fuel : Nat) (toks : List PyTok) : Option (PyExpr × List PyTok) :=
  match fuel with
  | 0 => none
  | fuel + 1 =>
    match pyOr fuel toks with
    | none => none
    | some (e, rest) =>
      match rest with
      | PyTok.word "if" :: r =>
        match pyOr fuel r with
        | none => none
        | some (c, r') =>
          match r' with
          | PyTok.word "else" :: r'' =>
            match pyTern fuel r'' with
            | none => none
            | some (f, r3) => some (.cond e c f, r3)
          | _ => none
      | _ => some (e, rest)

/-- `or_test ::= and_test ("or" and_test)*`. -/
def pyOr (fuel : Nat) (toks : List PyTok) : Option (PyExpr × List PyTok) :=
  match fuel with
  | 0 => none
  | fuel + 1 =>
    match pyAnd fuel toks with
    | none => none
    | some (a, rest) => pyOrLoop fuel a rest

def pyOrLoop (fuel : Nat) (a : PyExpr) (toks : List PyTok) : Option (PyExpr × List PyTok) :=
  match fuel with
  | 0 => none
  | fuel + 1 =>
    match toks with
    | PyTok.word "or" :: r =>
      match pyAnd fuel r with
      | none => none
      | some (b, r') => pyOrLoop fuel (.por a b) r'
    | _ => some (a, toks)

/-- `and_test ::= not_test ("and" not_test)*`. -/
def pyAnd (fuel : Nat) (toks : List PyTok) : Option (PyExpr × List PyTok) :=
  match fuel with
  | 0 => none
  | fuel + 1 =>
    match pyNotLevel fuel toks with
    | none => none
    | some (a, rest) => pyAndLoop fuel a rest

def pyAndLoop (fuel : Nat) (a : PyExpr) (toks : List PyTok) : Option (PyExpr × List PyTok) :=
  match fuel with
  | 0 => none
  | fuel + 1 =>
    match toks with
    | PyTok.word "and" :: r =>
      match pyNotLevel fuel r with
      | none => none
      | some (b, r') => pyAndLoop fuel (.pand a b) r'
    | _ => some (a, toks)

/-- `not_test ::= "not" not_test | comparison` (`not` binds *below*
comparisons in Python). -/
def pyNotLevel (fuel : Nat) (toks : List PyTok) : Option (PyExpr × List PyTok) :=
  match fuel with
  | 0 => none
  | fuel + 1 =>
    match toks with
    | PyTok.word "not" :: r =>
      match pyNotLevel fuel r with
      | none => none
      | some (e, r') => some (.pnot e, r')
    | _ => pyCmpLevel fuel toks

/-- `comparison ::= arith (cmp_op arith)*` with chaining: each adjacent pair
becomes one comparison and the pairs are conjoined left-to-right. -/
def pyCmpLevel (fuel : Nat) (toks : List PyTok) : Option (PyExpr × List PyTok) :=
  match fuel with
  | 0 => none
  | fuel + 1 =>
    match pyArithLevel fuel toks with
    | none => none
    | some (a, rest) => pyCmpLoop fuel none a rest

def pyCmpLoop (fuel : Nat) (acc : Option PyExpr) (last : PyExpr) (toks : List PyTok) :
    Option (PyExpr × List PyTok) :=
  match fuel with
  | 0 => none
  | fuel + 1 =>
    match toks with
    | PyTok.sym s :: r =>
      match pyCmpOf s with
      | some op =>
        match pyArithLevel fuel r with
        | none => none
        | some (b, r') =>
          let link := PyExpr.cmp op last b
          pyCmpLoop fuel (some (match acc with | none => link | some a => .pand a link)) b r'
      | none => some ((acc.getD last), toks)
    | _ => some ((acc.getD last), toks)

/-- `arith ::= term (("+"|"-") term)*`, left-associative. -/
def pyArithLevel (fuel : Nat) (toks : List PyTok) : Option (PyExpr × List PyTok) :=
  match fuel with
  | 0 => none
  | fuel + 1 =>
    match pyTerm fuel toks with
    | none => none
    | some (a, rest) => pyArithLoop fuel a rest

def pyArithLoop (fuel : Nat) (a : PyExpr) (toks : List PyTok) : Option (PyExpr × List PyTok) :=
  match fuel with
  | 0 => none
  | fuel + 1 =>
    match toks with
    | PyTok.sym "+" :: r =>
      match pyTerm fuel r with
      | none => none
      | some (b, r') => pyArithLoop fuel (.arith .add a b) r'
    | PyTok.sym "-" :: r =>
      match pyTerm fuel r with
      | none => none
      | some (b, r') => pyArithLoop fuel (.arith .sub a b) r'
    | _ => some (a, toks)

/-- `term ::= atom (("*"|"//"|"%") atom)*`, left-associative. -/
def pyTerm (fuel : Nat) (toks : List PyTok) : Option (PyExpr × List PyTok) :=
  match fuel with
  | 0 => none
  | fuel + 1 =>
    match pyAtom fuel toks with
    | none => none
    | some (a, rest) => pyTermLoop fuel a rest

def pyTermLoop (fuel : Nat) (a : PyExpr) (toks : List PyTok) : Option (PyExpr × List PyTok) :=
  match fuel with
  | 0 => none
  | fuel + 1 =>
    match toks with
    | PyTok.sym "*" :: r =>
      match pyAtom fuel r with
      | none => none
      | some (b, r') => pyTermLoop fuel (.arith .mul a b) r'
    | PyTok.sym "//" :: r =>
      match pyAtom fuel r with
      | none => none
      | some (b, r') => pyTermLoop fuel (.arith .fdiv a b) r'
    | PyTok.sym "%" :: r =>
      match pyAtom fuel r with
      | none => none
      | some (b, r') => pyTermLoop fuel (.arith .fmod a b) r'
    | _ => some (a, toks)

/-- `atom ::= NUMBER | "n" | "(" expression ")"`. -/
def pyAtom (fuel : Nat) (toks : List PyTok) : Option (PyExpr × List PyTok) :=
  match fuel with
  | 0 => none
  | fuel + 1 =>
    match toks with
    | PyTok.num v :: r => some (.lit (v : Int), r)
    | PyTok.word "n" :: r => some (.nvar, r)
    | PyTok.sym "(" :: r =>
      match pyTern fuel r with
      | none => none
      | some (e, r') =>
        match r' with
        | PyTok.sym ")" :: r'' => some (e, r'')
        | _ => none
    | _ => none

end

/-- Parse a full generated expression (all tokens consumed). -/
def pyParseExpr (toks : List PyTok) : Option PyExpr :=
  match pyTern ((toks.length + 1) * 10) toks with
  | some (e, []) => some e
  | _ => none

/-- Calling the function `c2py` `exec`d from the generated `text` on the
integer `n`: lex and parse the text with Python's grammar and evaluate it;
`int(...)` is the identity on the integer-encoded result.  `evalFailure` is
unreachable for compiler-produced text. -/
def pyRunText (text : String) (n : Int) : Except PoErr Int :=
  match pyTokLex (text.data.length + 1) text.data with
  | none => .error .evalFailure
  | some toks =>
    match pyParseExpr toks with
    | none => .error .evalFailure
    | some e => .ok (pyEvalExpr e n)

example : pyRunText "(n != 1)" 1 = .ok 0 := by decide
example : pyRunText "(n != 1)" 5 = .ok 1 := by decide
example : pyRunText "(n < 2) < 1" 5 = .ok 1 := by decide
example : pyRunText "n < 2 < 1" 5 = .ok 0 := by decide
example : pyRunText "0 if n == 1 else 1" 1 = .ok 0 := by decide
example : pyRunText "7 // 2" 0 = .ok 3 := by decide
example : pyRunText "not n" 0 = .ok 1 := by decide

/-! ## The catalog (`PoFileTranslations`)

Python attribute semantics matter here.  `_entries`, `_plural_entries` and
`_info` are declared at class level (lines 9–11 of `translate/__init__.py`).
No method ever assigns `self._entries` or `self._plural_entries`, so
`self._entries[k] = v` resolves the attribute to the class-level dict and
mutates that shared object: the model keeps those two maps in `PoClassState`,
one value shared by all instances.  `_info` is different: the inherited
initializer (modelled from CPython's `gettext.NullTranslations.__init__`, an
external collaborator: it sets `self._info = {}` and, when a file object is
given, calls `self._parse(fp)`) assigns an *instance* attribute `_info` that
shadows the class-level one, so `self._info[...] = ...` inside `_parse`
mutates per-instance state, kept in `PoInstance`. -/

/-- The class-level attributes of `PoFileTranslations`: one shared value. -/
structure PoClassState where
  entries : List (String × FieldMap)
  pluralEntries : List (String × FieldMap)
  classInfo : List (String × String)
  deriving DecidableEq, Repr

/-- The per-instance state: the `_info` dict `NullTranslations.__init__`
assigns to the instance. -/
structure PoInstance where
  ownInfo : List (String × String)
  deriving DecidableEq, Repr

/-- One line of the header-extraction loop of `PoFileTranslations._parse`:
`parts = line.split(':')`; fewer than two parts skips the line; otherwise the
key is `parts[0].strip()` and the value is `' : '.join(x.strip() for x in
parts[1:])`. -/
def headerLineCode (line : List Char) : Option (String × String) :=
  let parts := pySplitChar ':' line
  if parts.length < 2 then none
  else
    some (String.mk (pyStrip (parts.headD [])),
          String.mk (pyJoin " : ".data (parts.tail.map pyStrip)))

/-- The header-extraction loop over the meta entry's decoded string. -/
def processHeaderLines (acc : List (String × String)) (s : String) :
    List (String × String) :=
  (pySplitChar '\n' s.data).foldl
    (fun acc line =>
      match headerLineCode line with
      | none => acc
      | some (k, v) => odInsert k v acc)
    acc

/-- `PoFileTranslations._parse(fp)`: iterate the reader collecting
`entries[entry.id] = entry` and — since `entry.plural_id` is a string and
never `None`, making the `is not None` guard always true —
`plural_entries[entry.plural_id] = entry` for every entry; then remove the
empty-id entry (`KeyError` when there is none) and fold its string's lines
into the instance's `_info`. -/
def poParse (cs : PoClassState) (inst : PoInstance) (lines : List String) :
    Except PoErr (PoClassState × PoInstance) :=
  match pParse lines with
  | .error e => .error e
  | .ok ms =>
    match ms.foldlM
        (fun (acc : List (String × FieldMap) × List (String × FieldMap)) m => do
          let i ← entryId m
          let pid ← entryPluralId m
          pure (odInsert i m acc.1, odInsert pid m acc.2))
        (cs.entries, cs.pluralEntries) with
    | .error e => .error e
    | .ok (es, pes) =>
      match List.lookup "" es with
      | none => .error (.keyError "")
      | some meta =>
        match entryString meta with
        | .error e => .error e
        | .ok s =>
          .ok ({ cs with entries := odDelete "" es, pluralEntries := pes },
               { ownInfo := processHeaderLines inst.ownInfo s })

/-- `PoFileTranslations(fp)` construction: modelled from CPython's
`gettext.NullTranslations.__init__` — the fresh instance's `_info` is the new
empty instance dict; with a file, `_parse` then runs on it. -/
def poInit (cs : PoClassState) (fp : Option (List String)) :
    Except PoErr (PoClassState × PoInstance) :=
  match fp with
  | none => .ok (cs, { ownInfo := [] })
  | some lines => poParse cs { ownInfo := [] } lines

/-- `PoFileTranslations.info`: returns `self._info`, the instance attribute. -/
def poInfo (inst : PoInstance) : List (String × String) := inst.ownInfo

/-- `PoFileTranslations.gettext`: reads only the shared class-level
`_entries`; echoes the key when absent. -/
def poGettext (cs : PoClassState) (_inst : PoInstance) (message : String) :
    Except PoErr String :=
  match List.lookup message cs.entries with
  | some m => entryString m
  | none => .ok message

/-- The `re.sub(r'.*plural=([^;\r\n]+)(;.*|$)', r'\1', form_directive)` of
`ngettext`, modelled for single-line directive values (the only values
`_parse` produces: pieces of a `'\n'`-split line).  The greedy `.*` selects
the last occurrence of `plural=` that is followed by at least one character
outside `;`, CR, LF; the captured group is that maximal run, and the match —
hence the substitution — spans the whole string when the run is followed by
`;` or by nothing.  With no match the string is returned unchanged. -/
def reSubAux : List Char → Option String
  | [] => none
  | c :: rest =>
    match reSubAux rest with
    | some r => some r
    | none =>
      if (c :: rest).take 7 = "plural=".data then
        let after := (c :: rest).drop 7
        let grp := after.takeWhile (fun x => ¬ (x = ';' ∨ x = '\r' ∨ x = '\n'))
        let tailPart := after.dropWhile (fun x => ¬ (x = ';' ∨ x = '\r' ∨ x = '\n'))
        if ¬ grp.isEmpty ∧ (tailPart.isEmpty ∨ tailPart.head? = some ';') then
          some (String.mk grp)
        else none
      else none

/-- `re.sub` wrapper: unchanged input when the pattern does not match. -/
def reSubPlural (s : String) : String := (reSubAux s.data).getD s

/-- `PoFileTranslations.ngettext(singular, plural, n)`: pick the entry from
the shared `_entries` (cardinal 1) or `_plural_entries` (otherwise) —
`KeyError` when absent; read `Plural-Forms` from the instance's `_info`;
extract the `plural=` clause (`RuntimeError` when the substitution leaves the
directive unchanged or empty); compile it with `c2py`; apply the compiled rule
to `n`; and fetch that indexed form from the entry. -/
def poNgettext (cs : PoClassState) (inst : PoInstance) (singular plural : String)
    (n : Int) : Except PoErr String := do
  let entry ←
    if n = 1 then
      match List.lookup singular cs.entries with
      | some m => pure m
      | none => Except.error (.keyError singular)
    else
      match List.lookup plural cs.pluralEntries with
      | some m => pure m
      | none => Except.error (.keyError plural)
  let dir ←
    match List.lookup "Plural-Forms" inst.ownInfo with
    | some d => pure d
    | none => Except.error (.keyError "Plural-Forms")
  let processed := reSubPlural dir
  if processed = "" ∨ processed = dir then Except.error .malformedPluralForms
  else do
    let text ← c2py processed
    let idx ← pyRunText text n
    pluralForm entry idx

/-- The catalog of spec §8's end-to-end plural example: header with
`Plural-Forms: nplurals=2; plural=(n != 1);`, one entry with plural forms. -/
def demoCatalog : List String :=
  ["msgid \"\"",
   "msgstr \"Plural-Forms: nplurals=2; plural=(n != 1);\"",
   "",
   "msgid \"file\"",
   "msgid_plural \"files\"",
   "msgstr[0] \"fichier\"",
   "msgstr[1] \"fichiers\""]

example : reSubPlural "nplurals=2; plural=(n != 1);" = "(n != 1)" := by decide
example : reSubPlural "nplurals=2" = "nplurals=2" := by decide
example :
    (do
      let (cs, a) ← poInit ⟨[], [], []⟩ (some demoCatalog)
      poNgettext cs a "file" "files" 1)
    = .error (.keyError "msgstr[0]") := by decide
example :
    (do
      let (cs, a) ← poInit ⟨[], [], []⟩ (some demoCatalog)
      poNgettext cs a "file" "files" 5)
    = .error (.keyError "msgstr[1]") := by decide
example :
    (do
      let (_cs, a) ← poInit ⟨[], [], []⟩ (some demoCatalog)
      pure (poInfo a))
    = .ok [("Plural-Forms", "nplurals=2; plural=(n != 1);")] := by decide
example :
    (do
      let (cs, a) ← poInit ⟨[], [], []⟩ (some demoCatalog)
      poGettext cs a "file")
    = .ok "" := by decide

/-! ## The claims -/

/-- C1: the compiled rule for `(n != 1)` does map n=0,2,100 to index 1 and n=1
to index 0, and the catalog of the claim parses; but
`ngettext("file", "files", 1)` does not return `"fichier"` — it raises
`KeyError('msgstr[0]')`, because `PoFileEntry.__getitem__` evaluates
`self.DEFAULT[key]` eagerly and `DEFAULT` contains no indexed `msgstr[N]`
keys, so `plural_form` fails for every indexed form, present or not.  The
theorem evaluates the embedded code at the claim's inputs. -/
theorem c1_ngettext_raises_keyerror :
    (do
      let (cs, a) ← poInit ⟨[], [], []⟩ (some demoCatalog)
      poNgettext cs a "file" "files" 1) = .error (.keyError "msgstr[0]")
    ∧ (do
      let (cs, a) ← poInit ⟨[], [], []⟩ (some demoCatalog)
      poNgettext cs a "file" "files" 5) = .error (.keyError "msgstr[1]")
    ∧ c2py "(n != 1)" = .ok "(n != 1)"
    ∧ pyRunText "(n != 1)" 0 = .ok 1
    ∧ pyRunText "(n != 1)" 1 = .ok 0
    ∧ pyRunText "(n != 1)" 2 = .ok 1
    ∧ pyRunText "(n != 1)" 100 = .ok 1 := by
  decide

/-- C2: two `msgid` lines inside one entry are *not* rejected with
`DuplicateKeyword`: the reader's duplicate test is `self._peek.type in entry`,
and a keyword token's type is the literal string `'keyword'`, never an entry
key, so the second occurrence silently replaces the first (here
`msgid "a"` then `msgid "b"` parses to a single entry with `msgid = ("b",)`).
The theorem evaluates the embedded plural-aware parser at that input. -/
theorem c2_duplicate_msgid_overwrites_silently :
    pParse ["msgid \"a\"", "msgid \"b\""] = .ok [[("msgid", ["b"])]]
    ∧ pParse ["msgid \"a\"", "msgid \"a\""] = .ok [[("msgid", ["a"])]] := by
  decide

/-- C3: `plural_form(n)` is not total on entries lacking `msgstr[n]`: instead
of the empty string it raises `KeyError('msgstr[n]')`, because
`__getitem__`'s fallback expression `self.DEFAULT[key]` is evaluated eagerly
and `DEFAULT` holds only the eight static keys.  The contrast conjunct shows
the intended default path does resolve *static* absent keys to the empty
default. -/
theorem c3_plural_form_raises_keyerror :
    mkEntryP [("msgid", ["a"]), ("msgstr", ["b"])]
      = .ok [("msgid", ["a"]), ("msgstr", ["b"])]
    ∧ pluralForm [("msgid", ["a"]), ("msgstr", ["b"])] 0 = .error (.keyError "msgstr[0]")
    ∧ pluralForm [("msgid", ["a"]), ("msgstr", ["b"])] 3 = .error (.keyError "msgstr[3]")
    ∧ getItem [("msgid", ["a"]), ("msgstr", ["b"])] "msgctxt" = .ok []
    ∧ getKeyword [("msgid", ["a"]), ("msgstr", ["b"])] "msgctxt" = .ok "" := by
  decide

/-- The Russian-style 3-form plural rule used as the chained-comparison-bearing
reference of C4. -/
def ruRule : String :=
  "n % 10 == 1 && n % 100 != 11 ? 0 : n % 10 >= 2 && n % 10 <= 4 && (n % 100 < 10 || n % 100 >= 20) ? 1 : 2"

/-- One C comparison step: the 0/1 integer result of comparing two integers
(C and Python compare integers identically; only grouping differs). -/
def cPair (op : PyCmp) (a b : Int) : Int := if pyCmpEval op a b then 1 else 0

/-- C unary `!` on an integer. -/
def cBang (a : Int) : Int := if a = 0 then 1 else 0

/-- The tier-4 (relational) operator tokens. -/
def tier4Ops : List String := ["<", ">", "<=", ">="]

/-- The tier-3 (equality) operator tokens. -/
def tier3Ops : List String := ["==", "!="]

/-- All tier-3/4 operator tokens. -/
def tierCmpOps : List String := ["<", ">", "<=", ">=", "==", "!="]

/-- The chain `n op1 2 op2 1` with two adjacent tier-3/4 operators. -/
def chainExpr (op1 op2 : String) : String := "n " ++ op1 ++ " 2 " ++ op2 ++ " 1"

/-- Its left-to-right pairwise grouping. -/
def chainLeftText (op1 op2 : String) : String :=
  "(n " ++ op1 ++ " 2) " ++ op2 ++ " 1"

/-- Its right grouping (C precedence: relational binds tighter than
equality). -/
def chainRightText (op1 op2 : String) : String :=
  "n " ++ op1 ++ " (2 " ++ op2 ++ " 1)"

/-- C4 (counterexample): the claim's universal fails when a unary `!` stands
before the chain.  `! n < 2 < 1` contains adjacent tier-4 operators; the
compiler emits `(not n < 2) < 1`, and Python's `not` binds *below* the
comparison, so the compiled evaluator computes `(not (n < 2)) < 1` — at n=0
this is `(not 0 < 2) < 1` = `False < 1` = 1 — while C's structural
left-to-right evaluation `((!n) < 2) < 1` gives `((!0) < 2) < 1` =
`(1 < 2) < 1` = `1 < 1` = 0. -/
theorem c4_counterexample_bang_chain :
    c2py "! n < 2 < 1" = .ok "(not n < 2) < 1"
    ∧ pyRunText "(not n < 2) < 1" 0 = .ok 1
    ∧ cPair .lt (cPair .lt (cBang 0) 2) 1 = 0 := by
  decide

/-- C4 (amended): for adjacent tier-3/4 operators not under a unary `!`, the
compiled evaluator groups structurally as C evaluates, for *every* pair of
tier-3/4 operator tokens: when the first operator is relational (tier 4), or
both are equality operators (tier 3), the pair is bracketed left-to-right —
`n op1 2 op2 1` compiles to `(n op1 2) op2 1` and, for all n, evaluates to
the 0/1 result of the first comparison compared with the last operand (C
pairwise), not target-language chaining (the unbracketed text chains: at n=5
it gives 0 where the compiled text gives 1); when an equality operator is
followed by a relational one the grouping follows C's precedence,
`n op1 (2 op2 1)`, again matching C for all n.  A three-operator chain
brackets the same way, and the 3-form rule with the `n%10==1 && n%100!=11`
pattern compiles and matches the reference (n, index) table. -/
theorem c4_amended_pairwise_grouping :
    (∀ op1 op2 : String, op1 ∈ tier4Ops → op2 ∈ tierCmpOps →
      c2py (chainExpr op1 op2) = .ok (chainLeftText op1 op2)
      ∧ ∀ n : Int, pyRunText (chainLeftText op1 op2) n
          = .ok (cPair ((pyCmpOf op2).getD .lt) (cPair ((pyCmpOf op1).getD .lt) n 2) 1))
    ∧ (∀ op1 op2 : String, op1 ∈ tier3Ops → op2 ∈ tier3Ops →
      c2py (chainExpr op1 op2) = .ok (chainLeftText op1 op2)
      ∧ ∀ n : Int, pyRunText (chainLeftText op1 op2) n
          = .ok (cPair ((pyCmpOf op2).getD .lt) (cPair ((pyCmpOf op1).getD .lt) n 2) 1))
    ∧ (∀ op1 op2 : String, op1 ∈ tier3Ops → op2 ∈ tier4Ops →
      c2py (chainExpr op1 op2) = .ok (chainRightText op1 op2)
      ∧ ∀ n : Int, pyRunText (chainRightText op1 op2) n
          = .ok (cPair ((pyCmpOf op1).getD .lt) n (cPair ((pyCmpOf op2).getD .lt) 2 1)))
    ∧ c2py "n < 2 < 3 < 1" = .ok "((n < 2) < 3) < 1"
    ∧ (∀ n : Int, pyRunText "((n < 2) < 3) < 1" n
        = .ok (cPair .lt (cPair .lt (cPair .lt n 2) 3) 1))
    ∧ pyRunText "(n < 2) < 1" 5 = .ok 1
    ∧ pyRunText "n < 2 < 1" 5 = .ok 0
    ∧ c2py ruRule = .ok "0 if n % 10 == 1 and n % 100 != 11 else 1 if n % 10 >= 2 and n % 10 <= 4 and (n % 100 < 10 or n % 100 >= 20) else 2"
    ∧ ([(1, 0), (2, 1), (5, 2), (11, 2), (21, 0), (22, 1), (25, 2), (100, 2),
        (101, 0), (111, 2)] : List (Int × Int)).all
        (fun p => (c2py ruRule >>= fun t => pyRunText t p.1) = .ok p.2) := by
  refine ⟨?_, ?_, ?_, by decide, fun n => rfl, by decide, by decide, by decide, by decide⟩
  · intro op1 op2 h1 h2
    simp only [tier4Ops, tierCmpOps, List.mem_cons, List.not_mem_nil, or_false] at h1 h2
    rcases h1 with rfl | rfl | rfl | rfl <;>
      rcases h2 with rfl | rfl | rfl | rfl | rfl | rfl <;>
      exact ⟨by decide, fun n => rfl⟩
  · intro op1 op2 h1 h2
    simp only [tier3Ops, List.mem_cons, List.not_mem_nil, or_false] at h1 h2
    rcases h1 with rfl | rfl <;> rcases h2 with rfl | rfl <;>
      exact ⟨by decide, fun n => rfl⟩
  · intro op1 op2 h1 h2
    simp only [tier3Ops, tier4Ops, List.mem_cons, List.not_mem_nil, or_false] at h1 h2
    rcases h1 with rfl | rfl <;> rcases h2 with rfl | rfl | rfl | rfl <;>
      exact ⟨by decide, fun n => rfl⟩

/-- `List.lookup` only returns pairs of the list. -/
lemma lookup_mem {α : Type} {m : List (String × α)} {k : String} {v : α}
    (h : List.lookup k m = some v) : (k, v) ∈ m := by
  induction m with
  | nil => simp [List.lookup] at h
  | cons p rest ih =>
    rw [List.lookup] at h
    rcases p with ⟨k', v'⟩
    by_cases hk : k = k'
    · subst hk
      simp at h
      simp [h]
    · have hbeq : (k == k') = false := beq_eq_false_iff_ne.mpr hk
      rw [hbeq] at h
      exact List.mem_cons_of_mem _ (ih h)

/-- C5 (counterexample): the key `msgstr[0]x` is outside the static set and
does *not* match `msgstr[N]` as a whole key, yet entry construction succeeds —
`re.match` anchors only at the start, so any suffix after `msgstr[N]` is
admitted.  This refutes the claim that every such key fails construction. -/
theorem c5_counterexample_prefix_key_accepted :
    mkEntryP [("msgstr[0]x", ["y"])] = .ok [("msgstr[0]x", ["y"])]
    ∧ odContains "msgstr[0]x" pDefault = false := by
  decide

/-- C5 (amended): every collected key outside the static set that does not
match `msgstr[N]` *at the start of the key* (the `re.match` semantics) causes
entry construction to fail with `UnknownFieldKey`; keys with such a prefix are
accepted (see the counterexample theorem for the suffix case). -/
theorem c5_amended_unknown_key_rejected (m : FieldMap) (k : String)
    (hmem : odContains k m = true) (hstatic : odContains k pDefault = false)
    (hpat : isIndexedMsgstr k = false) :
    mkEntryP m = .error .unknownFieldKey := by
  unfold mkEntryP
  have hval : pValidKey k = false := by
    unfold pValidKey
    rw [hstatic, hpat]
    rfl
  have hall : m.all (fun kv => pValidKey kv.1) = false := by
    rw [List.all_eq_false]
    unfold odContains at hmem
    rcases Option.isSome_iff_exists.mp hmem with ⟨v, hv⟩
    exact ⟨(k, v), lookup_mem hv, by simp [hval]⟩
  rw [hall]
  rfl

theorem c5_amended_witness : mkEntryP [("bogus", ["v"])] = .error .unknownFieldKey :=
  c5_amended_unknown_key_rejected [("bogus", ["v"])] "bogus" (by decide) (by decide)
    (by decide)

/-- The running-depth maximum over all prefixes of a character list, starting
from depth `d`: the "parenthesis nesting depth" of the claim. -/
def nestPeak : List Char → Int → Int
  | [], d => d
  | c :: rest, d =>
    max d (nestPeak rest (if c = '(' then d + 1 else if c = ')' then d - 1 else d))

lemma nestPeak_ge (l : List Char) (d : Int) : d ≤ nestPeak l d := by
  cases l with
  | nil => simp [nestPeak]
  | cons c rest => exact le_max_left _ _

/-- The depth-check loop fails exactly when the running depth somewhere
exceeds 20 (it tests only after `(` steps, but the running maximum can only
rise at a `(` step, so from any start at most 20 the two agree). -/
lemma depthLoop_error_iff (l : List Char) (d : Int) (hd : d ≤ 20) :
    depthLoop l d = .error .tooComplex ↔ 20 < nestPeak l d := by
  induction l generalizing d with
  | nil =>
    simp [depthLoop, nestPeak]
    omega
  | cons c rest ih =>
    by_cases hc : c = '('
    · subst hc
      by_cases h21 : d + 1 > 20
      · have hge := nestPeak_ge rest (d + 1)
        simp [depthLoop, nestPeak, h21, lt_max_iff]
        omega
      · simp [depthLoop, nestPeak, h21, ih (d + 1) (by omega), lt_max_iff]
        omega
    · by_cases hc2 : c = ')'
      · subst hc2
        simp [depthLoop, nestPeak, ih (d - 1) (by omega), lt_max_iff]
        omega
      · simp [depthLoop, nestPeak, hc, hc2, ih d hd, lt_max_iff]
        omega

/-- `k` nested parentheses around `n`: compiles to itself, with nesting depth
exactly `k`. -/
def deepParens (k : Nat) : String :=
  String.mk (List.replicate k '(' ++ 'n' :: List.replicate k ')')

set_option maxRecDepth 8000 in
/-- C7: the compiled expression's text is depth-checked: the check fails with
`TooComplex` exactly when the running parenthesis depth of the compiled form
exceeds 20; the 21-fold nested expression is rejected by `c2py` while the
20-fold nested one passes (compiling to itself). -/
theorem c7_nesting_depth_guard :
    (∀ s : String, depthLoop s.data 0 = .error .tooComplex ↔ 20 < nestPeak s.data 0)
    ∧ c2py (deepParens 21) = .error .tooComplex
    ∧ c2py (deepParens 20) = .ok (deepParens 20)
    ∧ nestPeak (deepParens 21).data 0 = 21
    ∧ nestPeak (deepParens 20).data 0 = 20 := by
  refine ⟨fun s => depthLoop_error_iff s.data 0 (by omega), by decide, by decide,
    by decide, by decide⟩

/-- A backslash-free string unescapes to itself. -/
lemma unescapeCore_id (l : List Char) (h : ∀ c ∈ l, c ≠ '\\') :
    unescapeCore l = .ok l := by
  induction l with
  | nil => rfl
  | cons c rest ih =>
    have hc : c ≠ '\\' := h c (List.mem_cons_self c rest)
    have ih' : unescapeCore rest = .ok rest :=
      ih (fun x hx => h x (List.mem_cons_of_mem _ hx))
    unfold unescapeCore
    rw [if_neg hc, ih']
    rfl

/-- C6: `unescape` decodes each of the ten two-character sequences to its
single character, leaves backslash-free text unchanged, and fails with
`UnknownEscape` on a backslash followed by any other character or by
nothing. -/
theorem c6_unescape_escape_table :
    (unescape "\\\"" = .ok "\"" ∧ unescape "\\'" = .ok "'" ∧ unescape "\\\\" = .ok "\\"
     ∧ unescape "\\a" = .ok "\x07" ∧ unescape "\\b" = .ok "\x08"
     ∧ unescape "\\f" = .ok "\x0c" ∧ unescape "\\n" = .ok "\n"
     ∧ unescape "\\r" = .ok "\x0d" ∧ unescape "\\t" = .ok "\t"
     ∧ unescape "\\v" = .ok "\x0b")
    ∧ (∀ s : String, (∀ c ∈ s.data, c ≠ '\\') → unescape s = .ok s)
    ∧ (∀ c : Char, c ∉ ['"', '\'', '\\', 'a', 'b', 'f', 'n', 'r', 't', 'v'] →
        unescape (String.mk ['\\', c]) = .error .unknownEscape)
    ∧ unescape "\\" = .error .unknownEscape := by
  refine ⟨by decide, fun s hs => ?_, fun c hc => ?_, by decide⟩
  · unfold unescape
    rw [unescapeCore_id s.data hs]
    rfl
  · have h0 : escLookup c = none := by
      simp only [List.mem_cons, not_or] at hc
      obtain ⟨h1, h2, h3, h4, h5, h6, h7, h8, h9, h10, _⟩ := hc
      simp [escLookup, h1, h2, h3, h4, h5, h6, h7, h8, h9, h10]
    unfold unescape unescapeCore
    simp [h0]

/-- Split at the *first* occurrence of the separator: `none` when absent. -/
def splitFirst (sep : Char) : List Char → Option (List Char × List Char)
  | [] => none
  | c :: rest =>
    if c = sep then some ([], rest)
    else (fun p => (c :: p.1, p.2)) <$> splitFirst sep rest

/-- The spec's wording of header-line interpretation (§4.6): split the line on
the first `:`; a line without one is ignored; the key is the trimmed prefix,
the value the remaining colon-delimited parts, trimmed and rejoined with
`" : "`. -/
def headerLineSpec (line : List Char) : Option (String × String) :=
  match splitFirst ':' line with
  | none => none
  | some (pre, post) =>
    some (String.mk (pyStrip pre),
          String.mk (pyJoin " : ".data ((pySplitChar ':' post).map pyStrip)))

lemma pySplitChar_ne_nil (sep : Char) (l : List Char) : pySplitChar sep l ≠ [] := by
  cases l with
  | nil => simp [pySplitChar]
  | cons c rest =>
    unfold pySplitChar
    split
    · simp
    · split <;> simp

lemma pySplitChar_of_no_sep (sep : Char) (l : List Char)
    (h : splitFirst sep l = none) : pySplitChar sep l = [l] := by
  induction l with
  | nil => rfl
  | cons c rest ih =>
    unfold splitFirst at h
    by_cases hc : c = sep
    · rw [if_pos hc] at h
      exact absurd h (by simp)
    · rw [if_neg hc] at h
      have hrest : splitFirst sep rest = none := by
        cases he : splitFirst sep rest with
        | none => rfl
        | some p => rw [he] at h; exact absurd h (by simp)
      unfold pySplitChar
      rw [if_neg hc, ih hrest]

lemma pySplitChar_cons (sep c : Char) (rest : List Char) :
    pySplitChar sep (c :: rest) =
      if c = sep then [] :: pySplitChar sep rest
      else
        match pySplitChar sep rest with
        | [] => [[c]]
        | h :: t => (c :: h) :: t := rfl

lemma splitFirst_cons (sep c : Char) (rest : List Char) :
    splitFirst sep (c :: rest) =
      if c = sep then some ([], rest)
      else (fun p => (c :: p.1, p.2)) <$> splitFirst sep rest := rfl

lemma pySplitChar_of_sep (sep : Char) (l pre post : List Char)
    (h : splitFirst sep l = some (pre, post)) :
    pySplitChar sep l = pre :: pySplitChar sep post := by
  induction l generalizing pre with
  | nil => exact absurd h (by simp [splitFirst])
  | cons c rest ih =>
    rw [splitFirst_cons] at h
    by_cases hc : c = sep
    · rw [if_pos hc] at h
      injection h with h2
      injection h2 with h3 h4
      subst h3
      subst h4
      rw [pySplitChar_cons, if_pos hc]
    · rw [if_neg hc] at h
      cases he : splitFirst sep rest with
      | none => rw [he] at h; exact absurd h (by simp)
      | some q =>
        rcases q with ⟨pre', post'⟩
        rw [he] at h
        injection h with h2
        injection h2 with h3 h4
        subst h4
        rw [pySplitChar_cons, if_neg hc, ih pre' he, ← h3]

/-- C8: the header-extraction loop's per-line processing agrees, for every
line, with the spec's description: lines without a colon are ignored; the key
is the trimmed prefix before the first colon; the value is the remaining
colon-delimited parts, trimmed and rejoined with `" : "`. -/
theorem c8_header_line_interpretation (line : String) :
    headerLineCode line.data = headerLineSpec line.data := by
  cases h : splitFirst ':' line.data with
  | none =>
    unfold headerLineCode headerLineSpec
    rw [h, pySplitChar_of_no_sep ':' line.data h]
    simp
  | some p =>
    rcases p with ⟨pre, post⟩
    unfold headerLineCode headerLineSpec
    rw [h, pySplitChar_of_sep ':' line.data pre post h]
    have hne := pySplitChar_ne_nil ':' post
    have hlen : ¬ (pre :: pySplitChar ':' post).length < 2 := by
      cases he : pySplitChar ':' post with
      | nil => exact absurd he hne
      | cons a b => simp [he]
    rw [if_neg hlen]
    simp

/-- A catalog with a header and one plain entry, used to exhibit which parts
of the parsed state a second instance observes. -/
def c10Catalog : List String :=
  ["msgid \"\"",
   "msgstr \"Plural-Forms: nplurals=2; plural=(n != 1);\"",
   "",
   "msgid \"hello\"",
   "msgstr \"bonjour\""]

/-- C10 (counterexample): after instance `a` parses the catalog, a freshly
constructed instance `b` *does* observe the entries through the shared
class-level `_entries` (its `gettext` finds `"bonjour"`), but its `info()` is
the empty map — not the parsed header — and its `ngettext` fails with
`KeyError('Plural-Forms')`: `_info` is shadowed by the per-instance dict the
inherited initializer assigns, so the header metadata is not shared, refuting
the claim that every instance observes `_info`. -/
theorem c10_counterexample_info_not_shared :
    (do
      let (cs1, a) ← poInit ⟨[], [], []⟩ (some c10Catalog)
      let (cs2, b) ← poInit cs1 none
      pure (poGettext cs2 b "hello", poInfo b, poInfo a,
            poNgettext cs2 b "hello" "" 2))
    = .ok (.ok "bonjour", [], [("Plural-Forms", "nplurals=2; plural=(n != 1);")],
           .error (.keyError "Plural-Forms")) := by
  decide

/-- `_parse` never touches the class-level `_info` (it writes the instance's
shadowing `_info`), and only `entries`/`pluralEntries` of the class state
change. -/
lemma poParse_classInfo (cs : PoClassState) (inst : PoInstance) (lines : List String)
    (cs' : PoClassState) (inst' : PoInstance)
    (h : poParse cs inst lines = .ok (cs', inst')) : cs'.classInfo = cs.classInfo := by
  unfold poParse at h
  split at h
  · exact absurd h (by simp)
  · split at h
    · exact absurd h (by simp)
    · split at h
      · exact absurd h (by simp)
      · split at h
        · exact absurd h (by simp)
        · injection h with h2
          have := congrArg Prod.fst h2
          simp at this
          rw [← this]

/-- C10 (amended): `_entries` and `_plural_entries` are class-level and
shared — `gettext` reads only the class state, so its result is the same
through every instance, and a fresh instance leaves the class state intact —
while `_info`, although declared class-level, is shadowed per instance: a
fresh instance's `info()` is empty whatever was parsed before, and `_parse`
leaves the class-level `_info` unchanged. -/
theorem c10_amended_entries_shared_info_per_instance :
    (∀ (cs : PoClassState) (i i' : PoInstance) (m : String),
        poGettext cs i m = poGettext cs i' m)
    ∧ (∀ cs : PoClassState, poInit cs none = .ok (cs, { ownInfo := [] }))
    ∧ (∀ (cs cs' : PoClassState) (a : PoInstance) (lines : List String),
        poInit cs (some lines) = .ok (cs', a) →
        (∀ m, poGettext cs' { ownInfo := [] } m = poGettext cs' a m)
          ∧ poInfo { ownInfo := [] } = ([] : List (String × String))
          ∧ cs'.classInfo = cs.classInfo) := by
  refine ⟨fun cs i i' m => rfl, fun cs => rfl, fun cs cs' a lines h => ?_⟩
  exact ⟨fun m => rfl, rfl, poParse_classInfo cs { ownInfo := [] } lines cs' a h⟩

/-! ## C9: the plural-aware parser accepts a strict superset

The two pipelines differ in exactly two places: the keyword-continuation set
of the lexer and the key validation of entry construction.  The universal
direction below shows any successful non-plural parse is reproduced verbatim
by the plural parser. -/

lemma dropWhile_head_false {p : Char → Bool} :
    ∀ (l : List Char) (x : Char) (t : List Char), l.dropWhile p = x :: t → p x = false := by
  intro l
  induction l with
  | nil => intro x t h; simp at h
  | cons c rest ih =>
    intro x t h
    rw [List.dropWhile_cons] at h
    by_cases hc : p c
    · exact ih x t (by rwa [if_pos hc] at h)
    · rw [if_neg hc] at h
      injection h with h1 _
      rw [← h1]
      simpa using hc

/-- When `p` implies `q` and the first character where `p` stops also fails
`q`, the two take/drop runs coincide. -/
lemma takeWhile_congr_of_stop {p q : Char → Bool} (hpq : ∀ c, p c = true → q c = true) :
    ∀ l : List Char, (∀ x t, l.dropWhile p = x :: t → q x = false) →
      l.takeWhile q = l.takeWhile p ∧ l.dropWhile q = l.dropWhile p := by
  intro l
  induction l with
  | nil => simp
  | cons c rest ih =>
    intro hstop
    by_cases hp : p c
    · have hq := hpq c hp
      rw [List.takeWhile_cons, List.takeWhile_cons, List.dropWhile_cons, List.dropWhile_cons,
        if_pos hp, if_pos hq, if_pos hp, if_pos hq]
      have hstop' : ∀ x t, rest.dropWhile p = x :: t → q x = false := by
        intro x t hxt
        exact hstop x t (by rw [List.dropWhile_cons, if_pos hp]; exact hxt)
      obtain ⟨h1, h2⟩ := ih hstop'
      exact ⟨by rw [h1], h2⟩
    · have hq : q c = false := by
        exact hstop c rest (by rw [List.dropWhile_cons, if_neg hp])
      rw [List.takeWhile_cons, List.takeWhile_cons, List.dropWhile_cons, List.dropWhile_cons,
        if_neg hp, if_neg (by simp [hq]), if_neg hp, if_neg (by simp [hq])]
      exact ⟨rfl, rfl⟩

/-- No keyword-continuation character is whitespace. -/
lemma pKw_not_space {x : Char} (h : pKw x = true) : pyIsSpace x = false := by
  by_contra h2
  have h3 : pyIsSpace x = true := by simpa using h2
  simp only [pyIsSpace, decide_eq_true_eq] at h3
  rcases h3 with rfl | rfl | rfl | rfl | rfl | rfl <;> simp [pKw, pyIsAlpha, pyIsDigit] at h

/-- A successful scan starts with a quote or a letter. -/
lemma scanChunks_ok_head {kw : Char → Bool} {fuel : Nat} {x : Char} {t : List Char}
    {ts : List Tok} (h : scanChunks kw fuel (x :: t) = .ok ts) :
    x = '"' ∨ pyIsAlpha x = true := by
  cases fuel with
  | zero => exact absurd h (by simp [scanChunks])
  | succ fuel =>
    by_cases hx : x = '"'
    · exact Or.inl hx
    · by_cases ha : pyIsAlpha x
      · exact Or.inr ha
      · exfalso
        unfold scanChunks at h
        rw [if_neg hx, if_neg ha] at h
        exact absurd h (by simp)

/-- Alphabetic characters continue keywords under both character sets. -/
lemma npKw_le_pKw (c : Char) (h : npKw c = true) : pKw c = true := by
  simp only [npKw] at h
  simp [pKw, h]

/-- Any chunk scan that succeeds with letters-only keywords succeeds with the
plural lexer's richer keyword set and produces the same tokens: after a
maximal letter run the next character cannot be a digit, `_`, `[` or `]`, for
the non-plural scan would then have failed on it. -/
lemma scanChunks_np_p :
    ∀ (fuel : Nat) (l : List Char) (ts : List Tok),
      scanChunks npKw fuel l = .ok ts → scanChunks pKw fuel l = .ok ts := by
  intro fuel
  induction fuel with
  | zero => intro l ts h; exact absurd h (by simp [scanChunks])
  | succ fuel ih =>
    intro l ts h
    cases l with
    | nil => simpa [scanChunks] using h
    | cons c rest =>
      unfold scanChunks at h ⊢
      by_cases hq : c = '"'
      · rw [if_pos hq] at h ⊢
        cases hs : scanString rest with
        | error e => rw [hs] at h; exact absurd h (by simp)
        | ok p =>
          rcases p with ⟨s, r⟩
          rw [hs] at h
          have h' : (match scanChunks npKw fuel (pyLstrip r) with
              | Except.error e => Except.error e
              | Except.ok ts2 => Except.ok (Tok.str (String.mk s) :: ts2)) = Except.ok ts := h
          show (match scanChunks pKw fuel (pyLstrip r) with
              | Except.error e => Except.error e
              | Except.ok ts2 => Except.ok (Tok.str (String.mk s) :: ts2)) = Except.ok ts
          cases hr : scanChunks npKw fuel (pyLstrip r) with
          | error e => rw [hr] at h'; exact absurd h' (by simp)
          | ok ts' => rw [hr] at h'; rw [ih _ _ hr]; exact h'
      · rw [if_neg hq] at h ⊢
        by_cases ha : pyIsAlpha c
        · rw [if_pos ha] at h ⊢
          have hstop : ∀ x t, (c :: rest).dropWhile npKw = x :: t → pKw x = false := by
            intro x t hxt
            by_contra hpx
            have hpx' : pKw x = true := by simpa using hpx
            have hnx : npKw x = false := dropWhile_head_false _ x t hxt
            have hxsp : pyIsSpace x = false := pKw_not_space hpx'
            have hls : pyLstrip (x :: t) = x :: t := by
              unfold pyLstrip
              rw [List.dropWhile_cons, if_neg (by simp [hxsp])]
            rw [hxt, hls] at h
            cases hrec : scanChunks npKw fuel (x :: t) with
            | error e => rw [hrec] at h; exact absurd h (by simp)
            | ok ts' =>
              rcases scanChunks_ok_head hrec with rfl | halpha
              · simp [pKw, pyIsAlpha, pyIsDigit] at hpx'
              · rw [show npKw x = pyIsAlpha x from rfl, halpha] at hnx
                exact absurd hnx (by simp)
          obtain ⟨htake, hdrop⟩ :=
            takeWhile_congr_of_stop npKw_le_pKw (c :: rest) hstop
          rw [htake, hdrop]
          cases hr : scanChunks npKw fuel (pyLstrip ((c :: rest).dropWhile npKw)) with
          | error e => rw [hr] at h; exact absurd h (by simp)
          | ok ts' => rw [hr] at h; rw [ih _ _ hr]; exact h
        · rw [if_neg ha] at h
          exact absurd h (by simp)

/-- Per-line lifting: the blank and comment branches are shared verbatim, the
chunk scan lifts by `scanChunks_np_p`. -/
lemma tokenizeLine_np_p (line : String) (ts : List Tok)
    (h : tokenizeLine npKw line = .ok ts) : tokenizeLine pKw line = .ok ts := by
  unfold tokenizeLine at h ⊢
  by_cases h1 : (pyCleanLine line).isEmpty ∨ (pyCleanLine line).all pyIsSpace
  · rw [if_pos h1] at h ⊢
    exact h
  · rw [if_neg h1] at h ⊢
    by_cases h2 : (pyCleanLine line).head? = some '#'
    · rw [if_pos h2] at h ⊢
      exact h
    · rw [if_neg h2] at h ⊢
      exact scanChunks_np_p _ _ _ h

lemma tokenizeLines_np_p :
    ∀ (lines : List String) (ts : List Tok),
      tokenizeLines npKw lines = .ok ts → tokenizeLines pKw lines = .ok ts := by
  intro lines
  induction lines with
  | nil => intro ts h; simpa [tokenizeLines] using h
  | cons line rest ih =>
    intro ts h
    unfold tokenizeLines at h ⊢
    cases h1 : tokenizeLine npKw line with
    | error e => rw [h1] at h; exact absurd h (by simp)
    | ok ts1 =>
      rw [h1] at h
      rw [tokenizeLine_np_p line ts1 h1]
      cases h2 : tokenizeLines npKw rest with
      | error e => rw [h2] at h; exact absurd h (by simp)
      | ok ts2 =>
        rw [h2] at h
        rw [ih ts2 h2]
        exact h

lemma odContains_mem {α : Type} {k : String} {m : List (String × α)}
    (h : odContains k m = true) : k ∈ m.map Prod.fst := by
  unfold odContains at h
  rcases Option.isSome_iff_exists.mp h with ⟨v, hv⟩
  exact List.mem_map.mpr ⟨(k, v), lookup_mem hv, rfl⟩

/-- Every key the non-plural entry accepts, the plural entry accepts. -/
lemma npValidKey_pValidKey (k : String) (h : npValidKey k = true) : pValidKey k = true := by
  unfold npValidKey at h
  have hm := odContains_mem h
  simp only [npDefault, List.map_cons, List.map_nil, List.mem_cons,
    List.not_mem_nil, or_false] at hm
  rcases hm with rfl | rfl | rfl | rfl | rfl | rfl | rfl <;> decide

lemma all_np_p (m : FieldMap) (h : m.all (fun kv => npValidKey kv.1) = true) :
    m.all (fun kv => pValidKey kv.1) = true := by
  rw [List.all_eq_true] at h ⊢
  exact fun x hx => npValidKey_pValidKey _ (h x hx)

/-- Entry-level lifting: the comment and keyword collection phases are the
same code; only the final key validation differs, and the non-plural
validation is the stronger one. -/
lemma finishEntry_np_p (m2 : FieldMap) (t2 : List Tok) (m : FieldMap) (rest : List Tok)
    (h : finishEntry npValidKey m2 t2 = .ok (m, rest)) :
    finishEntry pValidKey m2 t2 = .ok (m, rest) := by
  unfold finishEntry at h ⊢
  match t2, h with
  | [], h =>
    by_cases hall : m2.all (fun kv => npValidKey kv.1)
    · rw [if_pos hall] at h
      rw [if_pos (all_np_p m2 hall)]
      exact h
    · rw [if_neg hall] at h
      exact absurd h (by simp)
  | Tok.nil :: t2', h =>
    by_cases hall : m2.all (fun kv => npValidKey kv.1)
    · rw [if_pos hall] at h
      rw [if_pos (all_np_p m2 hall)]
      exact h
    · rw [if_neg hall] at h
      exact absurd h (by simp)
  | Tok.keyword n :: t2', h =>
    by_cases hall : m2.all (fun kv => npValidKey kv.1)
    · rw [if_pos hall] at h
      rw [if_pos (all_np_p m2 hall)]
      exact h
    · rw [if_neg hall] at h
      exact absurd h (by simp)
  | Tok.comment mk v :: t2', h => exact absurd h (by simp)
  | Tok.str v :: t2', h => exact absurd h (by simp)

lemma parseEntry_np_p (toks : List Tok) (m : FieldMap) (rest : List Tok)
    (h : parseEntry npValidKey toks = .ok (m, rest)) :
    parseEntry pValidKey toks = .ok (m, rest) := by
  unfold parseEntry at h ⊢
  cases h1 : collectComments (toks.length + 1) [] toks with
  | error e => rw [h1] at h; exact absurd h (by simp)
  | ok p1 =>
    rcases p1 with ⟨m1, t1⟩
    rw [h1] at h
    have h' : (match collectKeywords (t1.length + 1) m1 t1 with
        | Except.error e => Except.error e
        | Except.ok (m2, t2) => finishEntry npValidKey m2 t2) = Except.ok (m, rest) := h
    show (match collectKeywords (t1.length + 1) m1 t1 with
        | Except.error e => Except.error e
        | Except.ok (m2, t2) => finishEntry pValidKey m2 t2) = Except.ok (m, rest)
    cases h2 : collectKeywords (t1.length + 1) m1 t1 with
    | error e => rw [h2] at h'; exact absurd h' (by simp)
    | ok p2 =>
      rcases p2 with ⟨m2, t2⟩
      rw [h2] at h'
      exact finishEntry_np_p m2 t2 m rest h'

lemma parseAll_np_p :
    ∀ (fuel : Nat) (toks : List Tok) (ms : List FieldMap),
      parseAll npValidKey fuel toks = .ok ms → parseAll pValidKey fuel toks = .ok ms := by
  intro fuel
  induction fuel with
  | zero => intro toks ms h; exact absurd h (by simp [parseAll])
  | succ fuel ih =>
    intro toks ms h
    cases toks with
    | nil => simpa [parseAll] using h
    | cons t rest' =>
      unfold parseAll at h ⊢
      cases h1 : parseEntry npValidKey (t :: rest') with
      | error e => rw [h1] at h; exact absurd h (by simp)
      | ok p =>
        rcases p with ⟨m, r⟩
        rw [h1] at h
        rw [parseEntry_np_p _ _ _ h1]
        have h' : (match parseAll npValidKey fuel r with
            | Except.error e => Except.error e
            | Except.ok ms2 => Except.ok (m :: ms2)) = Except.ok ms := h
        show (match parseAll pValidKey fuel r with
            | Except.error e => Except.error e
            | Except.ok ms2 => Except.ok (m :: ms2)) = Except.ok ms
        cases h2 : parseAll npValidKey fuel r with
        | error e => rw [h2] at h'; exact absurd h' (by simp)
        | ok ms' =>
          rw [h2] at h'
          rw [ih r ms' h2]
          exact h'

/-- C9: the plural-aware parser accepts a strict superset of the non-plural
parser's grammar: every line sequence the non-plural parser turns into
entries, the plural parser turns into entries with identical field maps; and
a `msgid_plural` line is accepted only by the plural parser (the non-plural
lexer stops its keyword at `msgid` and fails on `_`). -/
theorem c9_plural_parser_strict_superset :
    (∀ (lines : List String) (ms : List FieldMap),
        npParse lines = .ok ms → pParse lines = .ok ms)
    ∧ pParse ["msgid_plural \"x\""] = .ok [[("msgid_plural", ["x"])]]
    ∧ npParse ["msgid_plural \"x\""] = .error .unknownCharacter := by
  refine ⟨fun lines ms h => ?_, by decide, by decide⟩
  unfold npParse at h
  unfold pParse
  cases ht : tokenizeLines npKw lines with
  | error e => rw [ht] at h; exact absurd h (by simp)
  | ok toks =>
    rw [ht] at h
    rw [tokenizeLines_np_p lines toks ht]
    exact parseAll_np_p _ _ _ h
